import Mathlib

/-!
Verification of the infra-gym test harness (`harness/run_tests.py`).

The Python functions that the claims refer to are embedded as executable
Lean definitions.  Python sets are modelled by lists whose use is purely
extensional (every set operation goes through `dedup`, `filter` and a final
sort, so only membership matters); Python's `sorted` on strings is modelled
by insertion sort with the lexicographic order on the character list of a
`String` (Python compares strings by code points; identifiers here are
ASCII).
-/

namespace InfraGym

/-! ### Python string primitives (ASCII identifiers) -/

/-- Auxiliary for the Python `needle in hay` substring test. -/
def pyInAux (needle : List Char) : List Char → Bool
  | [] => needle.isEmpty
  | c :: rest => needle.isPrefixOf (c :: rest) || pyInAux needle rest

/-- Python's `needle in hay` substring test. -/
def pyIn (needle hay : String) : Bool :=
  pyInAux needle.data hay.data

/-- Python's `s.startswith(pre)`. -/
def pyStartsWith (s pre : String) : Bool :=
  pre.data.isPrefixOf s.data

/-- Python's `s.endswith(suf)`. -/
def pyEndsWith (s suf : String) : Bool :=
  List.isSuffixOf suf.data s.data

/-- Python whitespace characters (the ASCII part of the default `str.strip`
set). -/
def pyIsSpace (c : Char) : Bool :=
  c == ' ' || c == '\t' || c == '\n' || c == '\r' || c == '\x0b' || c == '\x0c'

/-- Python's `s.strip() == ""`: every character is whitespace. -/
def pyStripIsEmpty (s : String) : Bool :=
  s.data.all pyIsSpace

/-- Python's `s.split(sep)` for a single-character separator, auxiliary. -/
def splitOnCharAux (sep : Char) : List Char → List Char → List String
  | [], acc => [⟨acc.reverse⟩]
  | c :: rest, acc =>
    if c == sep then ⟨acc.reverse⟩ :: splitOnCharAux sep rest []
    else splitOnCharAux sep rest (c :: acc)

/-- Python's `s.split(sep)` for a single-character separator. -/
def splitOnChar (sep : Char) (s : String) : List String :=
  splitOnCharAux sep s.data []

/-- Python's `sep.join(parts)`. -/
def joinSep (sep : String) : List String → String
  | [] => ""
  | [x] => x
  | x :: y :: rest => x ++ sep ++ joinSep sep (y :: rest)

/-! ### Lexicographic order on strings and Python's `sorted` -/

/-- Lexicographic comparison of character lists (Python's string order for
ASCII strings). -/
def lexLe : List Char → List Char → Bool
  | [], _ => true
  | _ :: _, [] => false
  | a :: as, b :: bs => if a < b then true else if b < a then false else lexLe as bs

/-- Lexicographic string comparison. -/
def strLe (a b : String) : Bool := lexLe a.data b.data

/-- `strLe` as a relation. -/
def strLeR (a b : String) : Prop := strLe a b = true

instance : DecidableRel strLeR := fun a b => instDecidableEqBool (strLe a b) true

theorem lexLe_refl (l : List Char) : lexLe l l = true := by
  induction l with
  | nil => rfl
  | cons a as ih => simp [lexLe, ih]

theorem lexLe_total (l₁ l₂ : List Char) : lexLe l₁ l₂ = true ∨ lexLe l₂ l₁ = true := by
  induction l₁ generalizing l₂ with
  | nil => left; rfl
  | cons a as ih =>
    cases l₂ with
    | nil => right; rfl
    | cons b bs =>
      rcases lt_trichotomy a b with h | h | h
      · left; simp [lexLe, h]
      · subst h
        rcases ih bs with h' | h' <;> [left; right] <;> simp [lexLe, h']
      · right; simp [lexLe, h]

theorem lexLe_cons_iff {a b : Char} {as bs : List Char} :
    lexLe (a :: as) (b :: bs) = true ↔ a < b ∨ (a = b ∧ lexLe as bs = true) := by
  simp only [lexLe]
  by_cases hab : a < b
  · simp [hab]
  · by_cases hba : b < a
    · simp [hab, hba, ne_of_gt hba]
    · have hab' : a = b := le_antisymm (not_lt.mp hba) (not_lt.mp hab)
      simp [hab, hba, hab']

theorem lexLe_trans {l₁ l₂ l₃ : List Char} (h₁ : lexLe l₁ l₂ = true)
    (h₂ : lexLe l₂ l₃ = true) : lexLe l₁ l₃ = true := by
  induction l₁ generalizing l₂ l₃ with
  | nil => rfl
  | cons a as ih =>
    cases l₂ with
    | nil => simp [lexLe] at h₁
    | cons b bs =>
      cases l₃ with
      | nil => simp [lexLe] at h₂
      | cons c cs =>
        rw [lexLe_cons_iff] at h₁ h₂ ⊢
        rcases h₁ with h₁ | ⟨rfl, h₁⟩
        · rcases h₂ with h₂ | ⟨rfl, h₂⟩
          · exact Or.inl (lt_trans h₁ h₂)
          · exact Or.inl h₁
        · rcases h₂ with h₂ | ⟨rfl, h₂⟩
          · exact Or.inl h₂
          · exact Or.inr ⟨rfl, ih h₁ h₂⟩

theorem lexLe_antisymm {l₁ l₂ : List Char} (h₁ : lexLe l₁ l₂ = true)
    (h₂ : lexLe l₂ l₁ = true) : l₁ = l₂ := by
  induction l₁ generalizing l₂ with
  | nil =>
    cases l₂ with
    | nil => rfl
    | cons b bs => simp [lexLe] at h₂
  | cons a as ih =>
    cases l₂ with
    | nil => simp [lexLe] at h₁
    | cons b bs =>
      rw [lexLe_cons_iff] at h₁ h₂
      rcases h₁ with h₁ | ⟨rfl, h₁⟩
      · rcases h₂ with h₂ | ⟨rfl, h₂⟩
        · exact absurd h₂ (asymm h₁)
        · exact absurd h₁ (lt_irrefl _)
      · rcases h₂ with h₂ | ⟨_, h₂⟩
        · exact absurd h₂ (lt_irrefl _)
        · rw [ih h₁ h₂]

instance : IsTotal String strLeR :=
  ⟨fun a b => lexLe_total a.data b.data⟩

instance : IsTrans String strLeR :=
  ⟨fun _ _ _ h₁ h₂ => lexLe_trans h₁ h₂⟩

instance : IsRefl String strLeR :=
  ⟨fun a => lexLe_refl a.data⟩

instance : IsAntisymm String strLeR :=
  ⟨fun a b h₁ h₂ => by
    cases a; cases b
    exact congrArg String.mk (lexLe_antisymm h₁ h₂)⟩

/-- Python's `sorted(<set>)` for a set of strings given by any list of its
elements: deduplicate and sort lexicographically. -/
def pySortedSet (xs : List String) : List String :=
  List.insertionSort strLeR xs.dedup

theorem mem_pySortedSet {x : String} {xs : List String} :
    x ∈ pySortedSet xs ↔ x ∈ xs := by
  unfold pySortedSet
  rw [(List.perm_insertionSort strLeR xs.dedup).mem_iff, List.mem_dedup]

theorem pySortedSet_sorted (xs : List String) :
    List.Sorted strLeR (pySortedSet xs) :=
  List.sorted_insertionSort strLeR xs.dedup

theorem pySortedSet_nodup (xs : List String) :
    (pySortedSet xs).Nodup :=
  (List.perm_insertionSort strLeR xs.dedup).nodup_iff.mpr xs.nodup_dedup

/-- Two set-equal lists have the same persisted (sorted, deduplicated)
form: the output is independent of insertion order and multiplicity. -/
theorem pySortedSet_ext {xs ys : List String}
    (h : ∀ x, x ∈ xs ↔ x ∈ ys) : pySortedSet xs = pySortedSet ys := by
  refine List.eq_of_perm_of_sorted ?_ (pySortedSet_sorted xs) (pySortedSet_sorted ys)
  refine (List.perm_ext_iff_of_nodup (pySortedSet_nodup xs) (pySortedSet_nodup ys)).mpr ?_
  intro a
  rw [mem_pySortedSet, mem_pySortedSet]
  exact h a

/-! ### The classification step (`process_instance`, step 5) -/

/-- The four lists persisted by the classification step. -/
structure ClassificationResult where
  fail_to_pass : List String
  pass_to_pass : List String
  regressions : List String
  both_failed : List String
deriving DecidableEq

/-- The fine-grained resolution target for a coarse phase-1 error:
`err_id + "::"` when the identifier already ends in `".py"`, and
`err_id + ".py::"` otherwise. -/
def coarsePfx (errId : String) : String :=
  if pyEndsWith errId ".py" then errId ++ "::" else errId ++ ".py::"

/-- One iteration of the inner loop `for p2 in phase2_passed_set` of the
coarse-to-fine resolution in `process_instance`: state is
`(f2p_set, module_errors_resolved)`. -/
def resolveInner (errId : String) (st : List String × List String) (p2 : String) :
    List String × List String :=
  if pyStartsWith p2 (coarsePfx errId) ∧ p2 ∉ st.1 then
    (st.1 ++ [p2], st.2 ++ [errId])
  else st

/-- One iteration of the outer loop `for err_id in phase1_results["errors"]`
of the coarse-to-fine resolution in `process_instance`. -/
def resolveStep (passedSet2 : List String) (st : List String × List String)
    (errId : String) : List String × List String :=
  if pyIn "::" errId = false ∧ errId ∉ passedSet2 then
    passedSet2.foldl (resolveInner errId) st
  else st

/-- The classification step of `process_instance` (step 5): given the four
relevant report lists, compute the `FAIL_TO_PASS`, `PASS_TO_PASS`,
`regressions` and `both_failed` lists exactly as the Python code does. -/
def classify (p1passed p1failed p1errors p2passed : List String) :
    ClassificationResult :=
  let failedSet := (p1failed ++ p1errors).dedup
  let passedSet1 := p1passed.dedup
  let passedSet2 := p2passed.dedup
  let base := failedSet.filter (fun x => decide (x ∈ passedSet2))
  let st := p1errors.foldl (resolveStep passedSet2) (base, [])
  { fail_to_pass := pySortedSet st.1
    pass_to_pass := pySortedSet (passedSet1.filter (fun x => decide (x ∈ passedSet2)))
    regressions := pySortedSet (passedSet1.filter (fun x => decide (x ∉ passedSet2)))
    both_failed := pySortedSet
      ((failedSet.filter (fun x => decide (x ∉ passedSet2))).filter
        (fun x => decide (x ∉ st.2))) }

/-! ### Membership characterizations of the resolution loop -/

theorem mem_resolveInner_fst {e p2 x : String} {st : List String × List String} :
    x ∈ (resolveInner e st p2).1 ↔
      x ∈ st.1 ∨ (x = p2 ∧ pyStartsWith p2 (coarsePfx e) = true) := by
  unfold resolveInner
  split
  · rename_i h
    simp only [List.mem_append, List.mem_singleton]
    constructor
    · rintro (hx | rfl)
      · exact Or.inl hx
      · exact Or.inr ⟨rfl, h.1⟩
    · rintro (hx | ⟨rfl, _⟩)
      · exact Or.inl hx
      · exact Or.inr rfl
  · rename_i h
    constructor
    · exact Or.inl
    · rintro (hx | ⟨rfl, hpre⟩)
      · exact hx
      · by_cases hmem : x ∈ st.1
        · exact hmem
        · exact absurd ⟨hpre, hmem⟩ h

theorem mem_innerFold_fst {e x : String} (L : List String)
    (st : List String × List String) :
    x ∈ (L.foldl (resolveInner e) st).1 ↔
      x ∈ st.1 ∨ (x ∈ L ∧ pyStartsWith x (coarsePfx e) = true) := by
  induction L generalizing st with
  | nil => simp
  | cons p L ih =>
    rw [List.foldl_cons, ih]
    rw [mem_resolveInner_fst]
    constructor
    · rintro ((hx | ⟨rfl, hpre⟩) | ⟨hL, hpre⟩)
      · exact Or.inl hx
      · exact Or.inr ⟨List.mem_cons_self _ _, hpre⟩
      · exact Or.inr ⟨List.mem_cons_of_mem _ hL, hpre⟩
    · rintro (hx | ⟨hL, hpre⟩)
      · exact Or.inl (Or.inl hx)
      · rcases List.mem_cons.mp hL with rfl | hL
        · exact Or.inl (Or.inr ⟨rfl, hpre⟩)
        · exact Or.inr ⟨hL, hpre⟩

theorem mem_outerFold_fst {x : String} (p2s : List String) (errs : List String)
    (st : List String × List String) :
    x ∈ (errs.foldl (resolveStep p2s) st).1 ↔
      x ∈ st.1 ∨ ∃ e ∈ errs, pyIn "::" e = false ∧ e ∉ p2s ∧
        x ∈ p2s ∧ pyStartsWith x (coarsePfx e) = true := by
  induction errs generalizing st with
  | nil => simp
  | cons e errs ih =>
    rw [List.foldl_cons, ih]
    unfold resolveStep
    split
    · rename_i h
      rw [mem_innerFold_fst]
      constructor
      · rintro ((hx | ⟨hL, hpre⟩) | ⟨e', he', hq⟩)
        · exact Or.inl hx
        · exact Or.inr ⟨e, List.mem_cons_self _ _, h.1, h.2, hL, hpre⟩
        · exact Or.inr ⟨e', List.mem_cons_of_mem _ he', hq⟩
      · rintro (hx | ⟨e', he', hq1, hq2, hq3, hq4⟩)
        · exact Or.inl (Or.inl hx)
        · rcases List.mem_cons.mp he' with rfl | he'
          · exact Or.inl (Or.inr ⟨hq3, hq4⟩)
          · exact Or.inr ⟨e', he', hq1, hq2, hq3, hq4⟩
    · rename_i h
      constructor
      · rintro (hx | ⟨e', he', hq⟩)
        · exact Or.inl hx
        · exact Or.inr ⟨e', List.mem_cons_of_mem _ he', hq⟩
      · rintro (hx | ⟨e', he', hq1, hq2, hq3, hq4⟩)
        · exact Or.inl hx
        · rcases List.mem_cons.mp he' with rfl | he'
          · exact absurd ⟨hq1, hq2⟩ h
          · exact Or.inr ⟨e', he', hq1, hq2, hq3, hq4⟩

theorem mem_resolveInner_snd {e p2 y : String} {st : List String × List String} :
    y ∈ (resolveInner e st p2).2 ↔
      y ∈ st.2 ∨ (y = e ∧ pyStartsWith p2 (coarsePfx e) = true ∧ p2 ∉ st.1) := by
  unfold resolveInner
  split
  · rename_i h
    simp only [List.mem_append, List.mem_singleton]
    constructor
    · rintro (hy | rfl)
      · exact Or.inl hy
      · exact Or.inr ⟨rfl, h.1, h.2⟩
    · rintro (hy | ⟨rfl, _, _⟩)
      · exact Or.inl hy
      · exact Or.inr rfl
  · rename_i h
    constructor
    · exact Or.inl
    · rintro (hy | ⟨rfl, hpre, hmem⟩)
      · exact hy
      · exact absurd ⟨hpre, hmem⟩ h

theorem mem_innerFold_snd {e y : String} (L : List String)
    (st : List String × List String) :
    y ∈ (L.foldl (resolveInner e) st).2 ↔
      y ∈ st.2 ∨ (y = e ∧ ∃ p ∈ L, pyStartsWith p (coarsePfx e) = true ∧ p ∉ st.1) := by
  induction L generalizing st with
  | nil => simp
  | cons p L ih =>
    rw [List.foldl_cons, ih]
    unfold resolveInner
    split
    · rename_i h
      simp only [List.mem_append, List.mem_singleton]
      constructor
      · rintro ((hy | rfl) | ⟨rfl, q, hq, hqpre, hqmem⟩)
        · exact Or.inl hy
        · exact Or.inr ⟨rfl, p, List.mem_cons_self _ _, h.1, h.2⟩
        · exact Or.inr ⟨rfl, q, List.mem_cons_of_mem _ hq, hqpre, fun hmem => hqmem (Or.inl hmem)⟩
      · rintro (hy | ⟨rfl, q, hq, hqpre, hqmem⟩)
        · exact Or.inl (Or.inl hy)
        · exact Or.inl (Or.inr rfl)
    · rename_i h
      constructor
      · rintro (hy | ⟨rfl, q, hq, hqpre, hqmem⟩)
        · exact Or.inl hy
        · exact Or.inr ⟨rfl, q, List.mem_cons_of_mem _ hq, hqpre, hqmem⟩
      · rintro (hy | ⟨rfl, q, hq, hqpre, hqmem⟩)
        · exact Or.inl hy
        · rcases List.mem_cons.mp hq with rfl | hq
          · exact absurd ⟨hqpre, hqmem⟩ h
          · exact Or.inr ⟨rfl, q, hq, hqpre, hqmem⟩

/-- Declarative characterization of the `module_errors_resolved` set built
by the resolution loop: processing the phase-1 error identifiers in order,
`y` is marked resolved iff `y` is a qualifying coarse identifier and, at the
point it is processed, some phase-2 pass extending it is not yet covered
(covered = base intersection plus the extensions of earlier qualifying
coarse identifiers). -/
def resolvedAux (p2s : List String) : List String → List String → String → Bool
  | [], _, _ => false
  | e :: rest, covered, y =>
    if pyIn "::" e = false ∧ e ∉ p2s then
      (decide (y = e) &&
        p2s.any (fun p => pyStartsWith p (coarsePfx e) && !(decide (p ∈ covered))))
      || resolvedAux p2s rest
          (covered ++ p2s.filter (fun p => pyStartsWith p (coarsePfx e))) y
    else resolvedAux p2s rest covered y

theorem resolvedAux_congr {y : String} (errs : List String)
    {p2s₁ p2s₂ c₁ c₂ : List String}
    (hp : ∀ p, p ∈ p2s₁ ↔ p ∈ p2s₂) (hc : ∀ p, p ∈ c₁ ↔ p ∈ c₂) :
    resolvedAux p2s₁ errs c₁ y = resolvedAux p2s₂ errs c₂ y := by
  induction errs generalizing c₁ c₂ with
  | nil => rfl
  | cons e rest ih =>
    unfold resolvedAux
    by_cases hcond : pyIn "::" e = false ∧ e ∉ p2s₁
    · rw [if_pos hcond, if_pos (by rw [← hp e] at *; exact hcond)]
      have hrec : resolvedAux p2s₁ rest
          (c₁ ++ p2s₁.filter (fun p => pyStartsWith p (coarsePfx e))) y =
          resolvedAux p2s₂ rest
          (c₂ ++ p2s₂.filter (fun p => pyStartsWith p (coarsePfx e))) y := by
        refine ih ?_
        intro p
        simp only [List.mem_append, List.mem_filter]
        rw [hc p, hp p]
      rw [hrec]
      have hany : p2s₁.any (fun p => pyStartsWith p (coarsePfx e) && !(decide (p ∈ c₁))) =
          p2s₂.any (fun p => pyStartsWith p (coarsePfx e) && !(decide (p ∈ c₂))) := by
        rw [Bool.eq_iff_iff]
        simp only [List.any_eq_true, Bool.and_eq_true, Bool.not_eq_true',
          decide_eq_false_iff_not]
        constructor
        · rintro ⟨p, hmem, h1, h2⟩
          exact ⟨p, (hp p).mp hmem, h1, fun hh => h2 ((hc p).mpr hh)⟩
        · rintro ⟨p, hmem, h1, h2⟩
          exact ⟨p, (hp p).mpr hmem, h1, fun hh => h2 ((hc p).mp hh)⟩
      rw [hany]
    · rw [if_neg hcond, if_neg (by rw [← hp e] at *; exact hcond)]
      exact ih hc

theorem mem_outerFold_snd {y : String} (p2s : List String) (errs : List String)
    (cov res : List String) :
    y ∈ (errs.foldl (resolveStep p2s) (cov, res)).2 ↔
      y ∈ res ∨ resolvedAux p2s errs cov y = true := by
  induction errs generalizing cov res with
  | nil => simp [resolvedAux]
  | cons e rest ih =>
    rw [List.foldl_cons]
    by_cases hcond : pyIn "::" e = false ∧ e ∉ p2s
    · have hstep : resolveStep p2s (cov, res) e = p2s.foldl (resolveInner e) (cov, res) := by
        unfold resolveStep
        rw [if_pos hcond]
      have hres : resolvedAux p2s (e :: rest) cov y =
          ((decide (y = e) &&
            p2s.any (fun p => pyStartsWith p (coarsePfx e) && !(decide (p ∈ cov))))
          || resolvedAux p2s rest
              (cov ++ p2s.filter (fun p => pyStartsWith p (coarsePfx e))) y) := by
        conv_lhs => rw [resolvedAux]
        rw [if_pos hcond]
      rw [hstep, hres]
      have hpair : p2s.foldl (resolveInner e) (cov, res) =
          ((p2s.foldl (resolveInner e) (cov, res)).1,
            (p2s.foldl (resolveInner e) (cov, res)).2) := rfl
      rw [hpair, ih]
      have hcongr : resolvedAux p2s rest (p2s.foldl (resolveInner e) (cov, res)).1 y =
          resolvedAux p2s rest
            (cov ++ p2s.filter (fun p => pyStartsWith p (coarsePfx e))) y := by
        refine resolvedAux_congr rest (fun _ => Iff.rfl) ?_
        intro p
        rw [mem_innerFold_fst]
        simp only [List.mem_append, List.mem_filter]
      rw [hcongr, mem_innerFold_snd]
      simp only [Bool.or_eq_true, Bool.and_eq_true, decide_eq_true_eq,
        List.any_eq_true, Bool.not_eq_true', decide_eq_false_iff_not]
      exact or_assoc
    · have hstep : resolveStep p2s (cov, res) e = (cov, res) := by
        unfold resolveStep
        rw [if_neg hcond]
      have hres : resolvedAux p2s (e :: rest) cov y = resolvedAux p2s rest cov y := by
        conv_lhs => rw [resolvedAux]
        rw [if_neg hcond]
      rw [hstep, hres, ih]

/-! ### Membership in the four persisted classification lists -/

theorem classify_def (p1passed p1failed p1errors p2passed : List String) :
    classify p1passed p1failed p1errors p2passed =
      { fail_to_pass := pySortedSet (p1errors.foldl (resolveStep p2passed.dedup)
          (((p1failed ++ p1errors).dedup).filter
            (fun x => decide (x ∈ p2passed.dedup)), [])).1
        pass_to_pass := pySortedSet (p1passed.dedup.filter
          (fun x => decide (x ∈ p2passed.dedup)))
        regressions := pySortedSet (p1passed.dedup.filter
          (fun x => decide (x ∉ p2passed.dedup)))
        both_failed := pySortedSet
          ((((p1failed ++ p1errors).dedup).filter
              (fun x => decide (x ∉ p2passed.dedup))).filter
            (fun x => decide (x ∉ (p1errors.foldl (resolveStep p2passed.dedup)
              (((p1failed ++ p1errors).dedup).filter
                (fun x => decide (x ∈ p2passed.dedup)), [])).2))) } := rfl

theorem mem_classify_pass_to_pass {p1passed p1failed p1errors p2passed : List String}
    {x : String} :
    x ∈ (classify p1passed p1failed p1errors p2passed).pass_to_pass ↔
      x ∈ p1passed ∧ x ∈ p2passed := by
  rw [classify_def]
  simp only [mem_pySortedSet, List.mem_filter, List.mem_dedup, decide_eq_true_eq]

theorem mem_classify_regressions {p1passed p1failed p1errors p2passed : List String}
    {x : String} :
    x ∈ (classify p1passed p1failed p1errors p2passed).regressions ↔
      x ∈ p1passed ∧ x ∉ p2passed := by
  rw [classify_def]
  simp only [mem_pySortedSet, List.mem_filter, List.mem_dedup, decide_eq_true_eq]

theorem mem_classify_fail_to_pass {p1passed p1failed p1errors p2passed : List String}
    {x : String} :
    x ∈ (classify p1passed p1failed p1errors p2passed).fail_to_pass ↔
      ((x ∈ p1failed ∨ x ∈ p1errors) ∧ x ∈ p2passed) ∨
        (x ∈ p2passed ∧ ∃ e ∈ p1errors, pyIn "::" e = false ∧ e ∉ p2passed ∧
          pyStartsWith x (coarsePfx e) = true) := by
  rw [classify_def]
  simp only [mem_pySortedSet]
  rw [mem_outerFold_fst]
  simp only [List.mem_filter, List.mem_dedup, List.mem_append, decide_eq_true_eq]
  tauto

/-- The set `module_errors_resolved` computed by the resolution loop of the
classification step, as a standalone Boolean predicate on the raw report
lists: a coarse identifier is marked resolved iff the loop added on its
behalf at least one phase-2-passed extension that was not already in
`FAIL_TO_PASS` when that identifier was processed. -/
def loopResolved (p1failed p1errors p2passed : List String) (y : String) : Bool :=
  resolvedAux p2passed p1errors
    ((p1failed ++ p1errors).filter (fun x => decide (x ∈ p2passed))) y

theorem mem_classify_both_failed {p1passed p1failed p1errors p2passed : List String}
    {x : String} :
    x ∈ (classify p1passed p1failed p1errors p2passed).both_failed ↔
      (x ∈ p1failed ∨ x ∈ p1errors) ∧ x ∉ p2passed ∧
        loopResolved p1failed p1errors p2passed x = false := by
  rw [classify_def]
  simp only [mem_pySortedSet, List.mem_filter, List.mem_dedup, List.mem_append,
    decide_eq_true_eq]
  have hsnd : ∀ z : String,
      z ∈ (p1errors.foldl (resolveStep p2passed.dedup)
        (((p1failed ++ p1errors).dedup).filter
          (fun x => decide (x ∈ p2passed)), [])).2 ↔
      loopResolved p1failed p1errors p2passed z = true := by
    intro z
    rw [mem_outerFold_snd]
    unfold loopResolved
    have hcongr : resolvedAux p2passed.dedup p1errors
        (((p1failed ++ p1errors).dedup).filter
          (fun x => decide (x ∈ p2passed))) z =
        resolvedAux p2passed p1errors
          ((p1failed ++ p1errors).filter (fun x => decide (x ∈ p2passed))) z := by
      refine resolvedAux_congr p1errors (fun p => List.mem_dedup) ?_
      intro p
      simp only [List.mem_filter, List.mem_dedup, decide_eq_true_eq]
    rw [hcongr]
    simp
  constructor
  · rintro ⟨⟨hmem, hnp2⟩, hres⟩
    refine ⟨hmem, hnp2, ?_⟩
    rw [← Bool.not_eq_true, ← hsnd x]
    exact hres
  · rintro ⟨hmem, hnp2, hres⟩
    refine ⟨⟨hmem, hnp2⟩, ?_⟩
    rw [hsnd x, hres]
    simp

/-! ### Spec-side (declarative) definitions for the classification claims -/

/-- FAIL_TO_PASS as the specification words it: the base intersection
`(phase1.failed ∪ phase1.errored) ∩ phase2.passed`, extended by
coarse-to-fine resolution (every phase2.passed identifier extending the
fine-grained resolution target of a coarse phase1.errored identifier that is
not itself in phase2.passed). -/
def specFailToPass (p1failed p1errors p2passed : List String) (x : String) : Prop :=
  ((x ∈ p1failed ∨ x ∈ p1errors) ∧ x ∈ p2passed) ∨
    (x ∈ p2passed ∧ ∃ e ∈ p1errors, pyIn "::" e = false ∧ e ∉ p2passed ∧
      pyStartsWith x (coarsePfx e) = true)

/-- A coarse identifier resolved into FAIL_TO_PASS as the specification
words it: a coarse (no `"::"`) phase-1 error, not itself in phase2.passed,
with at least one phase2.passed identifier sharing its fine-grained
resolution target. -/
def claimResolved (p1errors p2passed : List String) (e : String) : Prop :=
  e ∈ p1errors ∧ pyIn "::" e = false ∧ e ∉ p2passed ∧
    ∃ p ∈ p2passed, pyStartsWith p (coarsePfx e) = true

/-- both_failed as the specification words it:
`((phase1.failed ∪ phase1.errored) − phase2.passed)` minus the coarse
identifiers resolved into FAIL_TO_PASS. -/
def specBothFailed (p1failed p1errors p2passed : List String) (x : String) : Prop :=
  (x ∈ p1failed ∨ x ∈ p1errors) ∧ x ∉ p2passed ∧
    ¬ claimResolved p1errors p2passed x

theorem loopResolved_congr {p1failed p1failed' p2passed p2passed' : List String}
    (p1errors : List String) (y : String)
    (hf : ∀ x, x ∈ p1failed' ↔ x ∈ p1failed)
    (h2 : ∀ x, x ∈ p2passed' ↔ x ∈ p2passed) :
    loopResolved p1failed' p1errors p2passed' y =
      loopResolved p1failed p1errors p2passed y := by
  unfold loopResolved
  refine resolvedAux_congr p1errors h2 ?_
  intro p
  simp only [List.mem_filter, List.mem_append, decide_eq_true_eq]
  rw [hf p, h2 p]

theorem classify_sorted (p1passed p1failed p1errors p2passed : List String) :
    List.Sorted strLeR (classify p1passed p1failed p1errors p2passed).fail_to_pass ∧
    List.Sorted strLeR (classify p1passed p1failed p1errors p2passed).pass_to_pass ∧
    List.Sorted strLeR (classify p1passed p1failed p1errors p2passed).regressions ∧
    List.Sorted strLeR (classify p1passed p1failed p1errors p2passed).both_failed := by
  rw [classify_def]
  exact ⟨pySortedSet_sorted _, pySortedSet_sorted _, pySortedSet_sorted _,
    pySortedSet_sorted _⟩

theorem classify_nodup (p1passed p1failed p1errors p2passed : List String) :
    (classify p1passed p1failed p1errors p2passed).fail_to_pass.Nodup ∧
    (classify p1passed p1failed p1errors p2passed).pass_to_pass.Nodup ∧
    (classify p1passed p1failed p1errors p2passed).regressions.Nodup ∧
    (classify p1passed p1failed p1errors p2passed).both_failed.Nodup := by
  rw [classify_def]
  exact ⟨pySortedSet_nodup _, pySortedSet_nodup _, pySortedSet_nodup _,
    pySortedSet_nodup _⟩

theorem list_eq_of_sorted_nodup_mem {l₁ l₂ : List String}
    (s₁ : List.Sorted strLeR l₁) (s₂ : List.Sorted strLeR l₂)
    (n₁ : l₁.Nodup) (n₂ : l₂.Nodup) (h : ∀ x, x ∈ l₁ ↔ x ∈ l₂) : l₁ = l₂ :=
  List.eq_of_perm_of_sorted ((List.perm_ext_iff_of_nodup n₁ n₂).mpr h) s₁ s₂

/-! ### Claim theorems about the classifier -/

/-- C1: for all phase-1 and phase-2 reports, the classification step
computes FAIL_TO_PASS as `(phase1.failed ∪ phase1.errored) ∩ phase2.passed`
extended by coarse-to-fine resolution: for every coarse identifier (no
`"::"`) in phase1.errored that is not itself in phase2.passed, every
phase2.passed identifier sharing its fine-grained resolution target is
added. -/
theorem fail_to_pass_matches_spec
    (p1passed p1failed p1errors p2passed : List String) (x : String) :
    x ∈ (classify p1passed p1failed p1errors p2passed).fail_to_pass ↔
      specFailToPass p1failed p1errors p2passed x :=
  mem_classify_fail_to_pass

/-- C5: for all phase-1 and phase-2 reports, PASS_TO_PASS is exactly
`phase1.passed ∩ phase2.passed`. -/
theorem pass_to_pass_is_intersection
    (p1passed p1failed p1errors p2passed : List String) (x : String) :
    x ∈ (classify p1passed p1failed p1errors p2passed).pass_to_pass ↔
      x ∈ p1passed ∧ x ∈ p2passed :=
  mem_classify_pass_to_pass

/-- C2 counterexample: the claimed disjointness of FAIL_TO_PASS and
PASS_TO_PASS fails.  With phase1.passed = {"a.py::t"},
phase1.errors = {"a.py"} and phase2.passed = {"a.py::t"}, coarse-to-fine
resolution puts "a.py::t" into FAIL_TO_PASS even though it also lies in
PASS_TO_PASS. -/
theorem fail_pass_overlap_cex :
    "a.py::t" ∈ (classify ["a.py::t"] [] ["a.py"] ["a.py::t"]).fail_to_pass ∧
    "a.py::t" ∈ (classify ["a.py::t"] [] ["a.py"] ["a.py::t"]).pass_to_pass := by
  decide

/-- C2 (amended): FAIL_TO_PASS and PASS_TO_PASS are disjoint provided the
phase-1 report is internally disjoint (no identifier both passed and
failed/errored in phase 1) and no phase-1-passed identifier extends the
fine-grained resolution target of a qualifying coarse phase-1 error. -/
theorem fail_pass_disjoint_of_no_coarse_overlap
    (p1passed p1failed p1errors p2passed : List String)
    (hdisj : ∀ x, x ∈ p1passed → x ∉ p1failed ∧ x ∉ p1errors)
    (hres : ∀ x ∈ p1passed, ∀ e ∈ p1errors, pyIn "::" e = false → e ∉ p2passed →
      pyStartsWith x (coarsePfx e) = false) :
    ∀ x, x ∈ (classify p1passed p1failed p1errors p2passed).fail_to_pass →
      x ∉ (classify p1passed p1failed p1errors p2passed).pass_to_pass := by
  intro x hf hp
  rw [mem_classify_fail_to_pass] at hf
  rw [mem_classify_pass_to_pass] at hp
  rcases hf with ⟨hmem, _⟩ | ⟨_, e, he, hq1, hq2, hq3⟩
  · rcases hmem with h | h
    · exact (hdisj x hp.1).1 h
    · exact (hdisj x hp.1).2 h
  · have hcontra := hres x hp.1 e he hq1 hq2
    rw [hq3] at hcontra
    exact Bool.noConfusion hcontra

theorem fail_pass_disjoint_witness :
    (∀ x, x ∈ ["t.py::old"] → x ∉ ["t.py::new"] ∧ x ∉ ["m.py"]) ∧
    (∀ x ∈ ["t.py::old"], ∀ e ∈ ["m.py"], pyIn "::" e = false → e ∉ ["t.py::old", "t.py::new"] →
      pyStartsWith x (coarsePfx e) = false) ∧
    (∀ x, x ∈ (classify ["t.py::old"] ["t.py::new"] ["m.py"] ["t.py::old", "t.py::new"]).fail_to_pass →
      x ∉ (classify ["t.py::old"] ["t.py::new"] ["m.py"] ["t.py::old", "t.py::new"]).pass_to_pass) :=
  ⟨by decide, by decide,
    fail_pass_disjoint_of_no_coarse_overlap
      ["t.py::old"] ["t.py::new"] ["m.py"] ["t.py::old", "t.py::new"]
      (by decide) (by decide)⟩

/-- C4 counterexample: both_failed does not equal
`((phase1.failed ∪ phase1.errored) − phase2.passed)` minus the coarse
identifiers resolved into FAIL_TO_PASS.  With phase1.failed = {"a.py::t"},
phase1.errors = {"a.py"} and phase2.passed = {"a.py::t"}, the coarse
identifier "a.py" is resolved in the specification sense (its extension
"a.py::t" lies in phase2.passed and in FAIL_TO_PASS), yet the code keeps
"a.py" in both_failed because the loop only marks a coarse identifier when
it adds an extension that was not already present. -/
theorem both_failed_deviates_from_spec_cex :
    "a.py" ∈ (classify [] ["a.py::t"] ["a.py"] ["a.py::t"]).both_failed ∧
    ¬ specBothFailed ["a.py::t"] ["a.py"] ["a.py::t"] "a.py" := by
  constructor
  · decide
  · unfold specBothFailed claimResolved
    decide

/-- C4 (amended): regressions = phase1.passed − phase2.passed, and
both_failed = `((phase1.failed ∪ phase1.errored) − phase2.passed)` minus
exactly those coarse identifiers for which the resolution loop added at
least one extension not already present in FAIL_TO_PASS at the moment that
identifier was processed (`loopResolved`); a coarse identifier whose every
phase-2-passed extension was already in FAIL_TO_PASS remains in
both_failed. -/
theorem regressions_and_both_failed_characterization
    (p1passed p1failed p1errors p2passed : List String) (x : String) :
    (x ∈ (classify p1passed p1failed p1errors p2passed).regressions ↔
      x ∈ p1passed ∧ x ∉ p2passed) ∧
    (x ∈ (classify p1passed p1failed p1errors p2passed).both_failed ↔
      (x ∈ p1failed ∨ x ∈ p1errors) ∧ x ∉ p2passed ∧
        loopResolved p1failed p1errors p2passed x = false) :=
  ⟨mem_classify_regressions, mem_classify_both_failed⟩

theorem classificationResult_ext {a b : ClassificationResult}
    (e1 : a.fail_to_pass = b.fail_to_pass) (e2 : a.pass_to_pass = b.pass_to_pass)
    (e3 : a.regressions = b.regressions) (e4 : a.both_failed = b.both_failed) : a = b := by
  cases a; cases b
  cases e1; cases e2; cases e3; cases e4
  rfl

/-- C9: the four persisted classification lists are sorted
lexicographically and duplicate-free, and their contents depend only on the
membership of the report sets, not on the order in which elements were
inserted: replacing the phase-1 passed, phase-1 failed and phase-2 passed
lists by any set-equal lists leaves all four outputs unchanged. -/
theorem classification_lists_sorted_and_canonical
    (p1passed p1failed p1errors p2passed p1passed' p1failed' p2passed' : List String)
    (hp : ∀ x, x ∈ p1passed' ↔ x ∈ p1passed)
    (hf : ∀ x, x ∈ p1failed' ↔ x ∈ p1failed)
    (h2 : ∀ x, x ∈ p2passed' ↔ x ∈ p2passed) :
    (List.Sorted strLeR (classify p1passed p1failed p1errors p2passed).fail_to_pass ∧
     List.Sorted strLeR (classify p1passed p1failed p1errors p2passed).pass_to_pass ∧
     List.Sorted strLeR (classify p1passed p1failed p1errors p2passed).regressions ∧
     List.Sorted strLeR (classify p1passed p1failed p1errors p2passed).both_failed) ∧
    ((classify p1passed p1failed p1errors p2passed).fail_to_pass.Nodup ∧
     (classify p1passed p1failed p1errors p2passed).pass_to_pass.Nodup ∧
     (classify p1passed p1failed p1errors p2passed).regressions.Nodup ∧
     (classify p1passed p1failed p1errors p2passed).both_failed.Nodup) ∧
    classify p1passed' p1failed' p1errors p2passed' =
      classify p1passed p1failed p1errors p2passed := by
  refine ⟨classify_sorted _ _ _ _, classify_nodup _ _ _ _, ?_⟩
  obtain ⟨sa1, sa2, sa3, sa4⟩ := classify_sorted p1passed' p1failed' p1errors p2passed'
  obtain ⟨sb1, sb2, sb3, sb4⟩ := classify_sorted p1passed p1failed p1errors p2passed
  obtain ⟨na1, na2, na3, na4⟩ := classify_nodup p1passed' p1failed' p1errors p2passed'
  obtain ⟨nb1, nb2, nb3, nb4⟩ := classify_nodup p1passed p1failed p1errors p2passed
  have e1 : (classify p1passed' p1failed' p1errors p2passed').fail_to_pass =
      (classify p1passed p1failed p1errors p2passed).fail_to_pass := by
    refine list_eq_of_sorted_nodup_mem sa1 sb1 na1 nb1 (fun x => ?_)
    rw [mem_classify_fail_to_pass, mem_classify_fail_to_pass]
    refine or_congr (and_congr (or_congr (hf x) Iff.rfl) (h2 x))
      (and_congr (h2 x) (exists_congr (fun e => and_congr Iff.rfl
        (and_congr Iff.rfl (and_congr (not_congr (h2 e)) Iff.rfl)))))
  have e2 : (classify p1passed' p1failed' p1errors p2passed').pass_to_pass =
      (classify p1passed p1failed p1errors p2passed).pass_to_pass := by
    refine list_eq_of_sorted_nodup_mem sa2 sb2 na2 nb2 (fun x => ?_)
    rw [mem_classify_pass_to_pass, mem_classify_pass_to_pass]
    exact and_congr (hp x) (h2 x)
  have e3 : (classify p1passed' p1failed' p1errors p2passed').regressions =
      (classify p1passed p1failed p1errors p2passed).regressions := by
    refine list_eq_of_sorted_nodup_mem sa3 sb3 na3 nb3 (fun x => ?_)
    rw [mem_classify_regressions, mem_classify_regressions]
    exact and_congr (hp x) (not_congr (h2 x))
  have e4 : (classify p1passed' p1failed' p1errors p2passed').both_failed =
      (classify p1passed p1failed p1errors p2passed).both_failed := by
    refine list_eq_of_sorted_nodup_mem sa4 sb4 na4 nb4 (fun x => ?_)
    rw [mem_classify_both_failed, mem_classify_both_failed]
    rw [loopResolved_congr p1errors x hf h2]
    exact and_congr (or_congr (hf x) Iff.rfl) (and_congr (not_congr (h2 x)) Iff.rfl)
  exact classificationResult_ext e1 e2 e3 e4

theorem classification_lists_sorted_and_canonical_witness :
    (∀ x, x ∈ (["b.py::u", "a.py::t"] : List String) ↔ x ∈ ["a.py::t", "b.py::u"]) ∧
    (∀ x, x ∈ (["c.py::v", "c.py::v"] : List String) ↔ x ∈ ["c.py::v"]) ∧
    (∀ x, x ∈ (["a.py::t", "c.py::v"] : List String) ↔ x ∈ ["c.py::v", "a.py::t"]) ∧
    (List.Sorted strLeR
      (classify ["a.py::t", "b.py::u"] ["c.py::v"] ["m.py"] ["c.py::v", "a.py::t"]).fail_to_pass ∧
     List.Sorted strLeR
      (classify ["a.py::t", "b.py::u"] ["c.py::v"] ["m.py"] ["c.py::v", "a.py::t"]).pass_to_pass ∧
     List.Sorted strLeR
      (classify ["a.py::t", "b.py::u"] ["c.py::v"] ["m.py"] ["c.py::v", "a.py::t"]).regressions ∧
     List.Sorted strLeR
      (classify ["a.py::t", "b.py::u"] ["c.py::v"] ["m.py"] ["c.py::v", "a.py::t"]).both_failed) ∧
    ((classify ["a.py::t", "b.py::u"] ["c.py::v"] ["m.py"] ["c.py::v", "a.py::t"]).fail_to_pass.Nodup ∧
     (classify ["a.py::t", "b.py::u"] ["c.py::v"] ["m.py"] ["c.py::v", "a.py::t"]).pass_to_pass.Nodup ∧
     (classify ["a.py::t", "b.py::u"] ["c.py::v"] ["m.py"] ["c.py::v", "a.py::t"]).regressions.Nodup ∧
     (classify ["a.py::t", "b.py::u"] ["c.py::v"] ["m.py"] ["c.py::v", "a.py::t"]).both_failed.Nodup) ∧
    classify ["b.py::u", "a.py::t"] ["c.py::v", "c.py::v"] ["m.py"] ["a.py::t", "c.py::v"] =
      classify ["a.py::t", "b.py::u"] ["c.py::v"] ["m.py"] ["c.py::v", "a.py::t"] :=
  ⟨(by intro x; simp only [List.mem_cons, List.mem_singleton, List.not_mem_nil, or_false]; tauto),
   (by intro x; simp only [List.mem_cons, List.mem_singleton, List.not_mem_nil, or_false]; tauto),
   (by intro x; simp only [List.mem_cons, List.mem_singleton, List.not_mem_nil, or_false]; tauto),
    classification_lists_sorted_and_canonical
      ["a.py::t", "b.py::u"] ["c.py::v"] ["m.py"] ["c.py::v", "a.py::t"]
      ["b.py::u", "a.py::t"] ["c.py::v", "c.py::v"] ["a.py::t", "c.py::v"]
      (by intro x; simp only [List.mem_cons, List.mem_singleton, List.not_mem_nil, or_false]; tauto)
      (by intro x; simp only [List.mem_cons, List.mem_singleton, List.not_mem_nil, or_false]; tauto)
      (by intro x; simp only [List.mem_cons, List.mem_singleton, List.not_mem_nil, or_false]; tauto)⟩

/-! ### The report parser (`parse_junit_xml` and `_make_node_id`) -/

/-- A parsed test report: the four outcome lists built by the parser. -/
structure TestReport where
  passed : List String
  failed : List String
  errors : List String
  skipped : List String
deriving DecidableEq

/-- Python's `p[0:1].islower()` for ASCII segments: the segment is nonempty
and its first character is a lowercase letter. -/
def headIsLower (p : String) : Bool :=
  match p.data with
  | c :: _ => c.isLower
  | [] => false

/-- A dot-segment that belongs to the file path: first character lowercase,
or `"test_"`-prefixed. -/
def isFileSeg (p : String) : Bool :=
  headIsLower p || pyStartsWith p "test_"

/-- Accumulator of the segment-partition loop in `_make_node_id`. -/
structure PartsAcc where
  fileParts : List String
  classParts : List String
  foundClass : Bool
deriving DecidableEq

/-- One iteration of the partition loop in `_make_node_id`. -/
def partStep (acc : PartsAcc) (p : String) : PartsAcc :=
  if acc.foundClass = false ∧ isFileSeg p = true then
    { acc with fileParts := acc.fileParts ++ [p] }
  else
    { fileParts := acc.fileParts, classParts := acc.classParts ++ [p],
      foundClass := true }

/-- Shared tail of the node-identifier synthesis: build the file path from
the file segments (falling back to slash-joining every segment when none
qualify), trim a doubled `".py.py"`, and append the class qualifier (when
present) and the case name. -/
def nodeIdFromParts (fileParts classParts parts : List String) (name : String) : String :=
  let filePath :=
    if fileParts.isEmpty then joinSep "/" parts ++ ".py"
    else joinSep "/" fileParts ++ ".py"
  let filePath :=
    if pyEndsWith filePath ".py.py" then ⟨filePath.data.take (filePath.data.length - 3)⟩
    else filePath
  if classParts.isEmpty then filePath ++ "::" ++ name
  else filePath ++ "::" ++ joinSep "." classParts ++ "::" ++ name

/-- `_make_node_id` from `run_tests.py`: convert a JUnit `classname` plus
case `name` into a pytest-style node identifier. -/
def _make_node_id (classname name : String) : String :=
  if classname = "" then
    if pyIn "." name && !(pyIn "::" name) && !(pyEndsWith name ".py") then
      joinSep "/" (splitOnChar '.' name) ++ ".py"
    else name
  else
    nodeIdFromParts
      ((splitOnChar '.' classname).foldl partStep ⟨[], [], false⟩).fileParts
      ((splitOnChar '.' classname).foldl partStep ⟨[], [], false⟩).classParts
      (splitOnChar '.' classname) name

/-- The node-identifier synthesis for a non-empty component as the
specification words it: the dot-segments of the component become path
separators up to the first segment that does not start with a lowercase
letter and is not `"test_"`-prefixed; that segment begins the class
qualifier. -/
def makeNodeIdSpec (classname name : String) : String :=
  nodeIdFromParts ((splitOnChar '.' classname).takeWhile isFileSeg)
    ((splitOnChar '.' classname).dropWhile isFileSeg)
    (splitOnChar '.' classname) name

/-- A structured-report test case: component (classname), case name, and
which of the child markers `<failure>`, `<error>`, `<skipped>` are
present. -/
structure TestCase where
  classname : String
  name : String
  hasFailure : Bool
  hasError : Bool
  hasSkipped : Bool

/-- One iteration of the testcase loop in `parse_junit_xml`: `failure` is
checked first, then `error`, then `skipped`; a case with none of them is
passed. -/
def recordCase (r : TestReport) (tc : TestCase) : TestReport :=
  let node_id := _make_node_id tc.classname tc.name
  if tc.hasFailure then { r with failed := r.failed ++ [node_id] }
  else if tc.hasError then { r with errors := r.errors ++ [node_id] }
  else if tc.hasSkipped then { r with skipped := r.skipped ++ [node_id] }
  else { r with passed := r.passed ++ [node_id] }

/-- `parse_junit_xml` from `run_tests.py`, over the list of testcase
elements of the document. -/
def parse_junit_xml (tcs : List TestCase) : TestReport :=
  tcs.foldl recordCase ⟨[], [], [], []⟩

theorem partFold_found (parts : List String) (acc : PartsAcc)
    (h : acc.foundClass = true) :
    parts.foldl partStep acc =
      { fileParts := acc.fileParts, classParts := acc.classParts ++ parts,
        foundClass := true } := by
  induction parts generalizing acc with
  | nil =>
    cases acc
    simp at h
    simp [h]
  | cons p rest ih =>
    rw [List.foldl_cons]
    have hstep : partStep acc p =
        { fileParts := acc.fileParts, classParts := acc.classParts ++ [p],
          foundClass := true } := by
      unfold partStep
      rw [if_neg]
      simp [h]
    rw [hstep, ih _ rfl]
    simp

theorem partFold_not_found (parts : List String) (acc : PartsAcc)
    (h : acc.foundClass = false) :
    parts.foldl partStep acc =
      { fileParts := acc.fileParts ++ parts.takeWhile isFileSeg,
        classParts := acc.classParts ++ parts.dropWhile isFileSeg,
        foundClass := !(parts.dropWhile isFileSeg).isEmpty } := by
  induction parts generalizing acc with
  | nil =>
    cases acc
    simp at h
    simp [h]
  | cons p rest ih =>
    rw [List.foldl_cons]
    by_cases hseg : isFileSeg p = true
    · have hstep : partStep acc p = { acc with fileParts := acc.fileParts ++ [p] } := by
        unfold partStep
        rw [if_pos ⟨h, hseg⟩]
      rw [hstep, ih _ (by simp [h])]
      simp [List.takeWhile_cons, List.dropWhile_cons, hseg]
    · have hstep : partStep acc p =
          { fileParts := acc.fileParts, classParts := acc.classParts ++ [p],
            foundClass := true } := by
        unfold partStep
        rw [if_neg (by simp [hseg])]
      rw [hstep, partFold_found rest _ rfl]
      simp [List.takeWhile_cons, List.dropWhile_cons, hseg]

/-! ### Test-target selection (`determine_test_targets`) -/

/-- An entry of `tests.test_files`: the `filename` field may be absent. -/
structure TestFileEntry where
  filename : Option String

/-- The fields of an instance record that target selection reads. -/
structure InstanceRecord where
  all_test_ids : List String
  affected_test_files : List String
  test_files : List TestFileEntry

/-- `determine_test_targets` from `run_tests.py`. -/
def determine_test_targets (inst : InstanceRecord) : List String :=
  if !inst.all_test_ids.isEmpty then inst.all_test_ids
  else if !inst.affected_test_files.isEmpty then inst.affected_test_files
  else if !inst.test_files.isEmpty then inst.test_files.filterMap (fun tf => tf.filename)
  else []

/-- The three-level priority as the claim words it (no emptiness guard on
the third level: an entry list with no `filename` fields simply yields the
empty list). -/
def targetsSpec (inst : InstanceRecord) : List String :=
  if !inst.all_test_ids.isEmpty then inst.all_test_ids
  else if !inst.affected_test_files.isEmpty then inst.affected_test_files
  else inst.test_files.filterMap (fun tf => tf.filename)



theorem pyEndsWith_append (s t : String) : pyEndsWith (s ++ t) t = true := by
  unfold pyEndsWith
  have hdata : (s ++ t).data = s.data ++ t.data := rfl
  rw [hdata]
  rw [List.isSuffixOf_iff_suffix]
  exact List.suffix_append _ _

/-- C6: the parser synthesizes node identifiers by turning the dot-segments
of a non-empty `classname` into path separators up to the first segment
that does not start with a lowercase letter and is not `"test_"`-prefixed
(which begins the class qualifier), yielding `path.py::Class::name` or
`path.py::name`; a case with an empty component and a bare dotted module
name is normalized to the slash-separated file-style identifier ending in
`".py"` with no case qualifier, and an error-marked case (a module-level
collection error) is appended to the errored list, never the failed
list. -/
theorem node_id_synthesis_and_collection_errors
    (classname name : String) (r : TestReport) (tc : TestCase) :
    (classname ≠ "" → _make_node_id classname name = makeNodeIdSpec classname name) ∧
    (pyIn "." name = true → pyIn "::" name = false → pyEndsWith name ".py" = false →
      _make_node_id "" name = joinSep "/" (splitOnChar '.' name) ++ ".py" ∧
      pyEndsWith (_make_node_id "" name) ".py" = true) ∧
    (tc.hasFailure = false → tc.hasError = true →
      recordCase r tc =
        { r with errors := r.errors ++ [_make_node_id tc.classname tc.name] }) := by
  refine ⟨?_, ?_, ?_⟩
  · intro h
    unfold _make_node_id makeNodeIdSpec
    rw [if_neg h, partFold_not_found _ _ rfl]
    simp
  · intro h1 h2 h3
    have hval : _make_node_id "" name = joinSep "/" (splitOnChar '.' name) ++ ".py" := by
      unfold _make_node_id
      rw [if_pos rfl, h1, h2, h3]
      simp
    refine ⟨hval, ?_⟩
    rw [hval]
    exact pyEndsWith_append _ _
  · intro hF hE
    unfold recordCase
    rw [hF, hE]
    simp

theorem node_id_synthesis_witness :
    _make_node_id "tests.foo.TestBar" "test_m" = makeNodeIdSpec "tests.foo.TestBar" "test_m" ∧
    (_make_node_id "" "tests.test_logger" =
        joinSep "/" (splitOnChar '.' "tests.test_logger") ++ ".py" ∧
      pyEndsWith (_make_node_id "" "tests.test_logger") ".py" = true) ∧
    recordCase ⟨[], [], [], []⟩ ⟨"", "tests.test_logger", false, true, false⟩ =
      { passed := [], failed := [],
        errors := [_make_node_id "" "tests.test_logger"], skipped := [] } :=
  ⟨(node_id_synthesis_and_collection_errors "tests.foo.TestBar" "test_m"
      ⟨[], [], [], []⟩ ⟨"", "tests.test_logger", false, true, false⟩).1 (by decide),
   (node_id_synthesis_and_collection_errors "" "tests.test_logger"
      ⟨[], [], [], []⟩ ⟨"", "tests.test_logger", false, true, false⟩).2.1
      (by decide) (by decide) (by decide),
   (node_id_synthesis_and_collection_errors "" "tests.test_logger"
      ⟨[], [], [], []⟩ ⟨"", "tests.test_logger", false, true, false⟩).2.2 rfl rfl⟩

/-- C10: the test target list follows the fixed three-level priority:
`all_test_ids` if non-empty, else `affected_test_files` if non-empty, else
the `filename` fields of the `test_files` entries that have one, else the
empty list. -/
theorem determine_test_targets_priority (inst : InstanceRecord) :
    determine_test_targets inst = targetsSpec inst := by
  unfold determine_test_targets targetsSpec
  by_cases h3 : inst.test_files.isEmpty
  · rw [List.isEmpty_iff.mp h3]
    simp
  · simp [h3]

/-! ### Patch application (`apply_patch`) -/

/-- Outcome of one `git apply` subprocess: an exit code, or a hit of the
60-second subprocess timeout (which `run_cmd` re-raises). -/
inductive GitOutcome where
  | exit (code : Nat)
  | timedOut
deriving DecidableEq

/-- The observable effect of one `apply_patch` call: the returned value (or
the escaping timeout exception, modelled as `Except.error ()`), whether the
scratch patch file was ever written, and whether it remains on disk
afterwards (the `finally` block always removes it). -/
structure ApplyOutcome where
  result : Except Unit Bool
  wroteScratch : Bool
  scratchRemains : Bool

/-- `apply_patch` from `run_tests.py`: empty or whitespace-only patch text
returns true without touching the tree; otherwise a strict `git apply` is
attempted and, on a non-zero exit, retried with `git apply --3way`; the
subprocess outcomes are inputs to the model. -/
def apply_patch (patchText : String) (strict threeWay : GitOutcome) : ApplyOutcome :=
  if patchText = "" ∨ pyStripIsEmpty patchText = true then
    { result := .ok true, wroteScratch := false, scratchRemains := false }
  else
    match strict with
    | .timedOut => { result := .error (), wroteScratch := true, scratchRemains := false }
    | .exit 0 => { result := .ok true, wroteScratch := true, scratchRemains := false }
    | .exit (_ + 1) =>
      match threeWay with
      | .timedOut => { result := .error (), wroteScratch := true, scratchRemains := false }
      | .exit 0 => { result := .ok true, wroteScratch := true, scratchRemains := false }
      | .exit (_ + 1) => { result := .ok false, wroteScratch := true, scratchRemains := false }

/-- C7: `apply_patch` returns true for empty or whitespace-only patch text
without writing its scratch file; whenever both apply subprocesses complete
(malformed patch content makes the tool exit non-zero, it does not raise),
the call returns a Boolean rather than raising, and returns false exactly
when the patch text is non-trivial and both the strict apply and the
three-way apply exit non-zero; the scratch file never remains on any exit
path. -/
theorem apply_patch_contract (patchText : String) (strict threeWay : GitOutcome) :
    ((patchText = "" ∨ pyStripIsEmpty patchText = true) →
      apply_patch patchText strict threeWay =
        { result := .ok true, wroteScratch := false, scratchRemains := false }) ∧
    (∀ c₁ c₂, strict = .exit c₁ → threeWay = .exit c₂ →
      (∃ b, (apply_patch patchText strict threeWay).result = .ok b) ∧
      ((apply_patch patchText strict threeWay).result = .ok false ↔
        ¬(patchText = "" ∨ pyStripIsEmpty patchText = true) ∧ c₁ ≠ 0 ∧ c₂ ≠ 0)) ∧
    (apply_patch patchText strict threeWay).scratchRemains = false := by
  refine ⟨?_, ?_, ?_⟩
  · intro h
    unfold apply_patch
    rw [if_pos h]
  · rintro c₁ c₂ rfl rfl
    unfold apply_patch
    by_cases h : patchText = "" ∨ pyStripIsEmpty patchText = true
    · rw [if_pos h]
      refine ⟨⟨true, rfl⟩, ?_⟩
      simp [h]
    · rw [if_neg h]
      match c₁ with
      | 0 =>
        refine ⟨⟨true, rfl⟩, ?_⟩
        simp
      | _ + 1 =>
        match c₂ with
        | 0 =>
          refine ⟨⟨true, rfl⟩, ?_⟩
          simp
        | _ + 1 =>
          refine ⟨⟨false, rfl⟩, ?_⟩
          simp [h]
  · unfold apply_patch
    by_cases h : patchText = "" ∨ pyStripIsEmpty patchText = true
    · rw [if_pos h]
    · rw [if_neg h]
      match strict with
      | .timedOut => rfl
      | .exit 0 => rfl
      | .exit (_ + 1) =>
        match threeWay with
        | .timedOut => rfl
        | .exit 0 => rfl
        | .exit (_ + 1) => rfl

theorem apply_patch_contract_witness :
    apply_patch " " (.exit 1) (.exit 1) =
      { result := .ok true, wroteScratch := false, scratchRemains := false } ∧
    ((apply_patch "x" (.exit 1) (.exit 1)).result = .ok false ↔
      ¬(("x" : String) = "" ∨ pyStripIsEmpty "x" = true) ∧ (1 : Nat) ≠ 0 ∧ (1 : Nat) ≠ 0) ∧
    (apply_patch "x" (.exit 1) (.exit 1)).scratchRemains = false :=
  ⟨(apply_patch_contract " " (.exit 1) (.exit 1)).1 (Or.inr (by decide)),
   ((apply_patch_contract "x" (.exit 1) (.exit 1)).2.1 1 1 rfl rfl).2,
   (apply_patch_contract "x" (.exit 1) (.exit 1)).2.2⟩

/-! ### The per-instance pipeline (`process_instance`) and the driver loop -/

/-- Outcome of one pytest phase: a completed run with its parsed report, or
a hit of the overall subprocess timeout (caught inside
`run_pytest_local` / `run_pytest_docker`). -/
inductive RunOutcome where
  | completed (r : TestReport)
  | timedOut
deriving DecidableEq

/-- The report with four empty lists. -/
def emptyReport : TestReport := ⟨[], [], [], []⟩

/-- `run_pytest_local` / `run_pytest_docker`: a completed run yields its
report; a timeout is caught and yields the sentinel report with
`errors = ["TIMEOUT"]` and nothing counted as passed, failed or skipped. -/
def runPytest (o : RunOutcome) : TestReport :=
  match o with
  | .completed r => r
  | .timedOut => { passed := [], failed := [], errors := ["TIMEOUT"], skipped := [] }

/-- The externally determined outcomes of the steps of one
`process_instance` run: whether the bare clone and the worktree could be
set up, the two patch texts with their `git apply` subprocess outcomes, the
test target list, and the two pytest phase outcomes. -/
structure PipelineEnv where
  cloneOk : Bool
  worktreeOk : Bool
  testPatch : String
  testStrict : GitOutcome
  test3way : GitOutcome
  targets : List String
  phase1 : RunOutcome
  fixPatch : String
  fixStrict : GitOutcome
  fix3way : GitOutcome
  phase2 : RunOutcome

/-- The fields of the persisted per-instance result record that the claims
concern. -/
structure InstanceResult where
  phase1 : TestReport
  phase2 : TestReport
  fail_to_pass : List String
  pass_to_pass : List String
  regressions : List String
  both_failed : List String
  status : String
  error_message : String
deriving DecidableEq

/-- The success record persisted after classification. -/
def successResult (p1 p2 : TestReport) : InstanceResult :=
  { phase1 := p1, phase2 := p2,
    fail_to_pass := (classify p1.passed p1.failed p1.errors p2.passed).fail_to_pass,
    pass_to_pass := (classify p1.passed p1.failed p1.errors p2.passed).pass_to_pass,
    regressions := (classify p1.passed p1.failed p1.errors p2.passed).regressions,
    both_failed := (classify p1.passed p1.failed p1.errors p2.passed).both_failed,
    status := "success", error_message := "" }

/-- An `InstanceResult` with empty phases and classification lists. -/
def baseResult (status msg : String) : InstanceResult :=
  { phase1 := emptyReport, phase2 := emptyReport, fail_to_pass := [],
    pass_to_pass := [], regressions := [], both_failed := [],
    status := status, error_message := msg }

/-- `process_instance` from `run_tests.py`: the per-instance pipeline.
Clone and worktree failures are caught inside and yield an "error" result;
a patch-apply subprocess timeout escapes as an exception
(`Except.error ()`); a pytest timeout is caught by the runner; a fix-patch
failure after phase 1 yields "partial" carrying the phase-1 report. -/
def process_instance (env : PipelineEnv) : Except Unit InstanceResult :=
  if env.cloneOk = false then
    .ok (baseResult "error" "Failed to create/update bare clone")
  else if env.worktreeOk = false then
    .ok (baseResult "error" "Failed to setup worktree")
  else
    match (apply_patch env.testPatch env.testStrict env.test3way).result with
    | .error _ => .error ()
    | .ok false => .ok (baseResult "error" "Failed to apply test_patch")
    | .ok true =>
      if env.targets.isEmpty then
        .ok (baseResult "error" "No test targets found for this instance")
      else
        let p1 := runPytest env.phase1
        match (apply_patch env.fixPatch env.fixStrict env.fix3way).result with
        | .error _ => .error ()
        | .ok false =>
          .ok { baseResult "partial" "Failed to apply source patch" with phase1 := p1 }
        | .ok true =>
          .ok (successResult p1 (runPytest env.phase2))

/-- The driver loop body in `main`: a `TimeoutExpired` escaping
`process_instance` is caught and converted into a persisted result with
status "timeout" and empty lists. -/
def run_one_instance (env : PipelineEnv) : InstanceResult :=
  match process_instance env with
  | .ok r => r
  | .error _ => baseResult "timeout" "Overall instance processing timed out"

/-- A pipeline run in which every setup step succeeds, phase 1 hits the
pytest timeout, and phase 2 completes normally. -/
def phase1TimeoutEnv : PipelineEnv :=
  { cloneOk := true, worktreeOk := true, testPatch := "", testStrict := .exit 0,
    test3way := .exit 0, targets := ["tests/t.py"], phase1 := .timedOut,
    fixPatch := "", fixStrict := .exit 0, fix3way := .exit 0,
    phase2 := .completed emptyReport }

/-- C3 counterexample: a test-run phase hitting its wall-clock timeout does
not give the instance status "timeout" — the runner swallows the timeout
into the sentinel report `errors = ["TIMEOUT"]` and the pipeline finishes
with status "success". -/
theorem phase_timeout_not_timeout_status_cex :
    (run_one_instance phase1TimeoutEnv).status = "success" ∧
    (run_one_instance phase1TimeoutEnv).status ≠ "timeout" ∧
    (run_one_instance phase1TimeoutEnv).phase1.errors = ["TIMEOUT"] := by
  decide

/-- C3 (amended): a pytest phase that hits its wall-clock timeout never
propagates an exception out of the pipeline — the runner returns the
sentinel report with no target counted as failed (or passed or skipped)
and the pipeline completes; the persisted status "timeout" with empty
FAIL_TO_PASS and PASS_TO_PASS arises instead when a subprocess timeout
escapes `process_instance` (a patch-apply `git` command timing out), which
the driver catches. -/
theorem timeout_handling (env : PipelineEnv)
    (hc : env.cloneOk = true) (hw : env.worktreeOk = true)
    (ht : (apply_patch env.testPatch env.testStrict env.test3way).result = .ok true)
    (hT : env.targets.isEmpty = false) :
    (∀ b, env.phase1 = .timedOut →
      (apply_patch env.fixPatch env.fixStrict env.fix3way).result = .ok b →
      ∃ r, process_instance env = .ok r ∧
        r.phase1 = { passed := [], failed := [], errors := ["TIMEOUT"], skipped := [] }) ∧
    ((apply_patch env.fixPatch env.fixStrict env.fix3way).result = .error () →
      (run_one_instance env).status = "timeout" ∧
      (run_one_instance env).fail_to_pass = [] ∧
      (run_one_instance env).pass_to_pass = []) := by
  constructor
  · rintro b h1 hfix
    cases b with
    | false =>
      refine ⟨{ baseResult "partial" "Failed to apply source patch" with
          phase1 := runPytest env.phase1 }, ?_, ?_⟩
      · unfold process_instance
        rw [hc, hw, ht, hT, hfix]
        simp
      · rw [h1]
        rfl
    | true =>
      refine ⟨successResult (runPytest env.phase1) (runPytest env.phase2), ?_, ?_⟩
      · unfold process_instance
        rw [hc, hw, ht, hT, hfix]
        simp
      · rw [h1]
        rfl
  · intro hfix
    have hproc : process_instance env = .error () := by
      unfold process_instance
      rw [hc, hw, ht, hT, hfix]
      simp
    unfold run_one_instance
    rw [hproc]
    exact ⟨rfl, rfl, rfl⟩

/-- A pipeline run in which the fix-patch `git apply` subprocess times
out. -/
def fixPatchTimeoutEnv : PipelineEnv :=
  { cloneOk := true, worktreeOk := true, testPatch := "", testStrict := .exit 0,
    test3way := .exit 0, targets := ["tests/t.py"],
    phase1 := .completed ⟨["tests/t.py::a"], [], [], []⟩,
    fixPatch := "diff", fixStrict := .timedOut, fix3way := .exit 0,
    phase2 := .completed emptyReport }

theorem timeout_handling_witness :
    (∃ r, process_instance phase1TimeoutEnv = .ok r ∧
      r.phase1 = { passed := [], failed := [], errors := ["TIMEOUT"], skipped := [] }) ∧
    ((run_one_instance fixPatchTimeoutEnv).status = "timeout" ∧
      (run_one_instance fixPatchTimeoutEnv).fail_to_pass = [] ∧
      (run_one_instance fixPatchTimeoutEnv).pass_to_pass = []) :=
  ⟨(timeout_handling phase1TimeoutEnv rfl rfl rfl rfl).1 true rfl rfl,
   (timeout_handling fixPatchTimeoutEnv rfl rfl rfl rfl).2 rfl⟩

/-- C8: a fix-patch failure after phase 1 has run yields status "partial"
with the phase-1 report retained in the result, whereas a failure before
phase 1 could run — bare-clone failure, worktree failure, or test-patch
failure — yields status "error". -/
theorem partial_vs_error_status (env : PipelineEnv) :
    (env.cloneOk = true → env.worktreeOk = true →
      (apply_patch env.testPatch env.testStrict env.test3way).result = .ok true →
      env.targets.isEmpty = false →
      (apply_patch env.fixPatch env.fixStrict env.fix3way).result = .ok false →
      process_instance env = .ok { baseResult "partial" "Failed to apply source patch"
        with phase1 := runPytest env.phase1 }) ∧
    (env.cloneOk = false →
      process_instance env = .ok (baseResult "error" "Failed to create/update bare clone")) ∧
    (env.cloneOk = true → env.worktreeOk = false →
      process_instance env = .ok (baseResult "error" "Failed to setup worktree")) ∧
    (env.cloneOk = true → env.worktreeOk = true →
      (apply_patch env.testPatch env.testStrict env.test3way).result = .ok false →
      process_instance env = .ok (baseResult "error" "Failed to apply test_patch")) := by
  refine ⟨?_, ?_, ?_, ?_⟩
  · intro hc hw ht hT hfix
    unfold process_instance
    rw [hc, hw, ht, hT, hfix]
    simp
  · intro hc
    unfold process_instance
    rw [hc]
    simp
  · intro hc hw
    unfold process_instance
    rw [hc, hw]
    simp
  · intro hc hw ht
    unfold process_instance
    rw [hc, hw, ht]
    simp

/-- A pipeline run in which phase 1 runs and then the fix patch fails both
apply attempts. -/
def fixPatchFailEnv : PipelineEnv :=
  { cloneOk := true, worktreeOk := true, testPatch := "", testStrict := .exit 0,
    test3way := .exit 0, targets := ["tests/t.py"],
    phase1 := .completed ⟨["tests/t.py::a"], ["tests/t.py::b"], [], []⟩,
    fixPatch := "diff", fixStrict := .exit 1, fix3way := .exit 1,
    phase2 := .completed emptyReport }

theorem partial_vs_error_status_witness :
    process_instance fixPatchFailEnv =
      .ok { baseResult "partial" "Failed to apply source patch"
        with phase1 := runPytest fixPatchFailEnv.phase1 } :=
  (partial_vs_error_status fixPatchFailEnv).1 rfl rfl rfl rfl rfl

/-- The "timeout" status is reachable: a fix-patch subprocess timeout
escapes the pipeline and the driver persists status "timeout" with empty
classification lists. -/
theorem fix_patch_timeout_gives_timeout_status :
    (run_one_instance fixPatchTimeoutEnv).status = "timeout" ∧
    (run_one_instance fixPatchTimeoutEnv).fail_to_pass = [] ∧
    (run_one_instance fixPatchTimeoutEnv).pass_to_pass = [] := by
  decide

end InfraGym
